import Mathlib

/-!
Shallow embedding of the E-VOTING core (src/main.py) and proofs about it.

The FastAPI route handlers in `src/main.py` are modelled as pure functions
over an explicit database state `DB`.  SQLAlchemy queries become operations
on Lean lists: `query(...).filter(cond).first()` becomes `List.find?`,
`query(...).filter(cond).count()` becomes `(List.filter ...).length`, and
`query(...).all()` is the list itself (insertion order).  `raise
HTTPException` becomes an `Except.error` outcome; since every raise in the
source happens before any `db.add`/mutation, the error branches return the
input state unchanged.  `db.add(x); db.commit()` becomes appending `x` and
(for the vote path) applying the flag update in the same returned state.
-/

namespace EVoting

/-- Modelled from the spec: the SQLAlchemy table definitions (`models.py`)
are not part of the sources; §3 and §6 of the spec give the voter columns
`voters(nid unique, name, birth_date, has_voted)` with a store-assigned
numeric primary key and `has_voted` starting `false`. -/
structure Voter where
  id : Nat
  nid : String
  name : String
  birth_date : String
  has_voted : Bool
  deriving DecidableEq

/-- Modelled from the spec: `models.py` is not in the sources; §3/§6 give
`candidates(id, name, party)` with a store-assigned unique numeric id. -/
structure Candidate where
  id : Nat
  name : String
  party : String
  deriving DecidableEq

/-- Modelled from the spec: `models.py` is not in the sources; §6 gives
`votes(id, voter_id, candidate_id, created_at)` with a store-assigned id.
The `created_at` audit timestamp plays no role in any operation of
`src/main.py` and is omitted. -/
structure Vote where
  id : Nat
  voter_id : Nat
  candidate_id : Nat
  deriving DecidableEq

/-- Modelled from the spec: admin records (`models.py`) are not in the
sources; `src/main.py` reads the fields `email` and `pass_field`. -/
structure Admin where
  email : String
  pass_field : String
  deriving DecidableEq

/-- The persistent store: the three tables plus the admin table, and the
next auto-increment primary key for each store-assigned id.  Modelled from
the spec where `models.py` is silent: ids are assigned by the store,
unique and immutable (§3). -/
structure DB where
  voters : List Voter
  candidates : List Candidate
  votes : List Vote
  admins : List Admin
  next_voter_id : Nat
  next_candidate_id : Nat
  next_vote_id : Nat
  deriving DecidableEq

/-- The caller-facing failure outcomes of `src/main.py`, one per
`raise HTTPException` site (spec taxonomy name in parentheses):
400 "Voter already registered" (DuplicateIdentity), 404 "Voter not found"
(VoterNotFound), 400 "Voter has already voted" (AlreadyVoted),
404 "Candidate not found" (CandidateNotFound), 404 "Admin not found"
(NotFound), 401 "Incorrect password" (InvalidCredential). -/
inductive ApiError where
  | duplicateIdentity
  | voterNotFound
  | alreadyVoted
  | candidateNotFound
  | adminNotFound
  | incorrectPassword
  deriving DecidableEq

/-- An initial store: no voters, candidates or votes; admin rows are
created out of band (spec §3) and are a parameter. -/
def initDB (admins : List Admin) : DB :=
  { voters := [], candidates := [], votes := [], admins := admins,
    next_voter_id := 1, next_candidate_id := 1, next_vote_id := 1 }

/-- Route `POST /voter/register` (src/main.py, register_voter). -/
def register_voter (nid name birth_date : String) (db : DB) :
    Except ApiError String × DB :=
  match db.voters.find? (fun v => v.nid == nid) with
  | some _ => (Except.error ApiError.duplicateIdentity, db)
  | none =>
    let new_voter : Voter :=
      { id := db.next_voter_id, nid := nid, name := name,
        birth_date := birth_date, has_voted := false }
    (Except.ok (s!"Voter {name} registered successfully"),
     { db with voters := db.voters ++ [new_voter],
               next_voter_id := db.next_voter_id + 1 })

/-- Route `POST /admin/login` (src/main.py, admin_login).  Read-only: the state
is not touched, so only the outcome is returned; on success the response
carries `db_admin.email`. -/
def admin_login (email password : String) (db : DB) : Except ApiError String :=
  match db.admins.find? (fun a => a.email == email) with
  | none => Except.error ApiError.adminNotFound
  | some db_admin =>
    if db_admin.pass_field != password then Except.error ApiError.incorrectPassword
    else Except.ok db_admin.email

/-- Route `POST /candidate/add` (src/main.py, add_candidate). -/
def add_candidate (name party : String) (db : DB) :
    Except ApiError String × DB :=
  let new_candidate : Candidate :=
    { id := db.next_candidate_id, name := name, party := party }
  (Except.ok (s!"Candidate {name} added successfully"),
   { db with candidates := db.candidates ++ [new_candidate],
             next_candidate_id := db.next_candidate_id + 1 })

/-- The in-place ORM update `voter.has_voted = True` (src/main.py, line
166): the row whose primary key equals the found voter's id gets its flag
set; every other row is untouched. -/
def setFlag (voterId : Nat) (v : Voter) : Voter :=
  if v.id == voterId then { v with has_voted := true } else v

/-- Route `POST /vote/...` (src/main.py, vote).  The source
checks the voter, then `has_voted`, then the candidate; on success it adds
the Vote row and sets the found voter's flag in one commit. -/
def vote (nid : String) (candidate_id : Nat) (db : DB) :
    Except ApiError String × DB :=
  match db.voters.find? (fun v => v.nid == nid) with
  | none => (Except.error ApiError.voterNotFound, db)
  | some voter =>
    if voter.has_voted then (Except.error ApiError.alreadyVoted, db)
    else
      match db.candidates.find? (fun c => c.id == candidate_id) with
      | none => (Except.error ApiError.candidateNotFound, db)
      | some candidate =>
        let vn := voter.name
        let cn := candidate.name
        let new_vote : Vote :=
          { id := db.next_vote_id, voter_id := voter.id,
            candidate_id := candidate.id }
        (Except.ok (s!"{vn} successfully voted for {cn}"),
         { db with
             votes := db.votes ++ [new_vote],
             voters := db.voters.map (setFlag voter.id),
             next_vote_id := db.next_vote_id + 1 })

/-- The query `db.query(models.Vote).filter(candidate_id == c.id).count()`
of src/main.py, lines 106 and 177. -/
def countVotesFor (db : DB) (cid : Nat) : Nat :=
  (db.votes.filter (fun vt => vt.candidate_id == cid)).length

/-- Number of committed Vote rows referencing a given voter id. -/
def countVotesBy (db : DB) (vid : Nat) : Nat :=
  (db.votes.filter (fun vt => vt.voter_id == vid)).length

/-- One row of the `/voterlist` response. -/
structure VoterEntry where
  id : Nat
  nid : String
  name : String
  birth_date : String
  has_voted : Bool
  deriving DecidableEq

/-- Route `GET /voterlist` (src/main.py, voter_list): on an empty store it
returns an informational message and an empty list; otherwise one entry
per voter, no message. -/
def voter_list (db : DB) : Option String × List VoterEntry :=
  if db.voters.isEmpty then (some "No voters registered yet", [])
  else (none, db.voters.map (fun v =>
    { id := v.id, nid := v.nid, name := v.name,
      birth_date := v.birth_date, has_voted := v.has_voted }))

/-- One row of the `/candidates` response. -/
structure CandidateEntry where
  id : Nat
  name : String
  party : String
  vote_count : Nat
  deriving DecidableEq

/-- Route `GET /candidates` (src/main.py, list_candidates). -/
def list_candidates (db : DB) : Option String × List CandidateEntry :=
  if db.candidates.isEmpty then (some "No candidates registered yet", [])
  else (none, db.candidates.map (fun c =>
    { id := c.id, name := c.name, party := c.party,
      vote_count := countVotesFor db c.id }))

/-- One row of the `/results` response. -/
structure ResultEntry where
  candidate : String
  party : String
  votes : Nat
  deriving DecidableEq

/-- Route `GET /results` (src/main.py, get_results). -/
def get_results (db : DB) : List ResultEntry :=
  db.candidates.map (fun c =>
    { candidate := c.name, party := c.party, votes := countVotesFor db c.id })

/-- One state-mutating operation of the core: voter registration,
candidate addition, or vote casting, with any outcome (the error branches
leave the state unchanged). -/
inductive Step : DB → DB → Prop where
  | register (db : DB) (nid name bd : String) :
      Step db (register_voter nid name bd db).2
  | addCand (db : DB) (name party : String) :
      Step db (add_candidate name party db).2
  | castVote (db : DB) (nid : String) (cid : Nat) :
      Step db (vote nid cid db).2

/-- States reachable from an initial store by the mutating operations. -/
inductive Reachable : DB → Prop where
  | init (admins : List Admin) : Reachable (initDB admins)
  | step {db db' : DB} : Reachable db → Step db db' → Reachable db'

/-! Basic facts about the flag update helper -/

@[simp] theorem setFlag_id (voterId : Nat) (v : Voter) :
    (setFlag voterId v).id = v.id := by
  unfold setFlag; split <;> rfl

@[simp] theorem setFlag_nid (voterId : Nat) (v : Voter) :
    (setFlag voterId v).nid = v.nid := by
  unfold setFlag; split <;> rfl

@[simp] theorem setFlag_has_voted (voterId : Nat) (v : Voter) :
    (setFlag voterId v).has_voted = (v.has_voted || v.id == voterId) := by
  unfold setFlag; split <;> rename_i hb <;> simp [hb]

theorem setFlag_of_ne {voterId : Nat} {v : Voter} (h : v.id ≠ voterId) :
    setFlag voterId v = v := by
  unfold setFlag
  simp [h]

theorem setFlag_of_eq {voterId : Nat} {v : Voter} (h : v.id = voterId) :
    setFlag voterId v = { v with has_voted := true } := by
  unfold setFlag
  simp [h]

/-! The state invariant maintained by the operations -/

/-- Invariant on stores: ids are distinct and below the auto-increment
counters, committed votes reference existing candidates, and each voter's
`has_voted` flag counts their committed votes (`1` if set, `0` if not). -/
structure Inv (db : DB) : Prop where
  voter_ids : db.voters.Pairwise (fun a b => a.id ≠ b.id)
  voter_id_lt : ∀ v ∈ db.voters, v.id < db.next_voter_id
  cand_ids : db.candidates.Pairwise (fun a b => a.id ≠ b.id)
  cand_id_lt : ∀ c ∈ db.candidates, c.id < db.next_candidate_id
  vote_voter_lt : ∀ vt ∈ db.votes, vt.voter_id < db.next_voter_id
  vote_cand : ∀ vt ∈ db.votes, ∃ c ∈ db.candidates, vt.candidate_id = c.id
  flag_count : ∀ v ∈ db.voters,
    countVotesBy db v.id = if v.has_voted then 1 else 0

theorem inv_init (admins : List Admin) : Inv (initDB admins) := by
  constructor <;> simp [initDB, countVotesBy]

theorem inv_register (nid name bd : String) {db : DB} (h : Inv db) :
    Inv (register_voter nid name bd db).2 := by
  unfold register_voter
  cases hf : db.voters.find? (fun v => v.nid == nid) with
  | some v => exact h
  | none =>
    refine ⟨?_, ?_, h.cand_ids, h.cand_id_lt, ?_, h.vote_cand, ?_⟩
    · rw [List.pairwise_append]
      refine ⟨h.voter_ids, by simp, ?_⟩
      intro a ha b hb
      simp only [List.mem_singleton] at hb
      subst hb
      exact Nat.ne_of_lt (h.voter_id_lt a ha)
    · intro v hv
      rcases List.mem_append.1 hv with hv | hv
      · exact Nat.lt_succ_of_lt (h.voter_id_lt v hv)
      · simp only [List.mem_singleton] at hv
        subst hv
        exact Nat.lt_succ_self _
    · intro vt hvt
      exact Nat.lt_succ_of_lt (h.vote_voter_lt vt hvt)
    · intro v hv
      rcases List.mem_append.1 hv with hv | hv
      · exact h.flag_count v hv
      · simp only [List.mem_singleton] at hv
        subst hv
        show countVotesBy db db.next_voter_id = if false then 1 else 0
        unfold countVotesBy
        simp only [if_neg Bool.false_ne_true, List.length_eq_zero,
          List.filter_eq_nil_iff]
        intro vt hvt
        have := h.vote_voter_lt vt hvt
        simp only [beq_iff_eq]
        omega

theorem inv_addCand (name cparty : String) {db : DB} (h : Inv db) :
    Inv (add_candidate name cparty db).2 := by
  unfold add_candidate
  refine ⟨h.voter_ids, h.voter_id_lt, ?_, ?_, h.vote_voter_lt, ?_, h.flag_count⟩
  · rw [List.pairwise_append]
    refine ⟨h.cand_ids, by simp, ?_⟩
    intro a ha b hb
    simp only [List.mem_singleton] at hb
    subst hb
    exact Nat.ne_of_lt (h.cand_id_lt a ha)
  · intro c hc
    rcases List.mem_append.1 hc with hc | hc
    · exact Nat.lt_succ_of_lt (h.cand_id_lt c hc)
    · simp only [List.mem_singleton] at hc
      subst hc
      exact Nat.lt_succ_self _
  · intro vt hvt
    obtain ⟨c, hc, hcid⟩ := h.vote_cand vt hvt
    exact ⟨c, List.mem_append_left _ hc, hcid⟩

/-- With pairwise-distinct ids, a voter in the store is determined by its
id. -/
theorem voter_eq_of_id_eq {db : DB}
    (hp : db.voters.Pairwise (fun a b => a.id ≠ b.id))
    {v w : Voter} (hv : v ∈ db.voters) (hw : w ∈ db.voters)
    (h : v.id = w.id) : v = w := by
  by_contra hne
  exact hp.forall (fun a b hab => (fun he => hab he.symm)) hv hw hne h

theorem inv_vote (nid : String) (cid : Nat) {db : DB} (h : Inv db) :
    Inv (vote nid cid db).2 := by
  unfold vote
  split
  · exact h
  · rename_i voter hf
    split
    · exact h
    · rename_i hvt0
      have hvt : voter.has_voted = false := by
        cases hb : voter.has_voted
        · rfl
        · exact absurd hb hvt0
      split
      · exact h
      · rename_i candidate hc
        have hvmem : voter ∈ db.voters := List.mem_of_find?_eq_some hf
        have hcmem : candidate ∈ db.candidates := List.mem_of_find?_eq_some hc
        dsimp only
        refine ⟨?_, ?_, h.cand_ids, h.cand_id_lt, ?_, ?_, ?_⟩
        · rw [List.pairwise_map]
          exact h.voter_ids.imp (fun hab => by simpa using hab)
        · intro v hv
          obtain ⟨w, hw, rfl⟩ := List.mem_map.1 hv
          simpa using h.voter_id_lt w hw
        · intro vt hvt'
          rcases List.mem_append.1 hvt' with hvt' | hvt'
          · exact h.vote_voter_lt vt hvt'
          · simp only [List.mem_singleton] at hvt'
            subst hvt'
            exact h.voter_id_lt voter hvmem
        · intro vt hvt'
          rcases List.mem_append.1 hvt' with hvt' | hvt'
          · exact h.vote_cand vt hvt'
          · simp only [List.mem_singleton] at hvt'
            subst hvt'
            exact ⟨candidate, hcmem, rfl⟩
        · intro v hv
          obtain ⟨w, hw, rfl⟩ := List.mem_map.1 hv
          have hcount := h.flag_count w hw
          unfold countVotesBy at hcount ⊢
          simp only [setFlag_id, setFlag_has_voted, List.filter_append,
            List.length_append]
          by_cases hid : w.id = voter.id
          · have hwv : w = voter := voter_eq_of_id_eq h.voter_ids hw hvmem hid
            subst hwv
            rw [hvt] at hcount
            simp [List.filter_cons, hvt, hcount]
          · have hne : (voter.id == w.id) = false := by
              simp only [beq_eq_false_iff_ne, ne_eq]
              exact fun he => hid he.symm
            have hwne : (w.has_voted || (w.id == voter.id)) = w.has_voted := by
              simp [hid]
            simp [List.filter_cons, hne, hwne, hcount]

theorem inv_step {db db' : DB} (h : Inv db) (hs : Step db db') : Inv db' := by
  cases hs with
  | register nid name bd => exact inv_register nid name bd h
  | addCand name cparty => exact inv_addCand name cparty h
  | castVote nid cid => exact inv_vote nid cid h

theorem inv_reachable {db : DB} (h : Reachable db) : Inv db := by
  induction h with
  | init admins => exact inv_init admins
  | step _ hs ih => exact inv_step ih hs

/-! Counting helper lemmas for the tally -/

theorem length_filter_add_length_filter_not {α : Type} (p : α → Bool)
    (l : List α) :
    (l.filter p).length + (l.filter (fun a => !(p a))).length = l.length := by
  induction l with
  | nil => rfl
  | cons a l ih =>
    cases ha : p a <;> simp [List.filter_cons, ha] <;> omega

/-- When candidate ids are pairwise distinct and every vote references one
of the candidates, the per-candidate counts sum to the total number of
votes. -/
theorem sum_counts (cs : List Candidate) (vts : List Vote)
    (hdis : cs.Pairwise (fun a b => a.id ≠ b.id))
    (href : ∀ vt ∈ vts, ∃ c ∈ cs, vt.candidate_id = c.id) :
    (cs.map (fun c =>
      (vts.filter (fun vt => vt.candidate_id == c.id)).length)).sum
      = vts.length := by
  induction cs generalizing vts with
  | nil =>
    have hemp : vts = [] := by
      cases vts with
      | nil => rfl
      | cons vt vts => exact absurd (href vt (by simp)) (by simp)
    simp [hemp]
  | cons c cs ih =>
    rw [List.map_cons, List.sum_cons]
    have hmap : ∀ c' ∈ cs,
        (vts.filter (fun vt => vt.candidate_id == c'.id)).length =
        ((vts.filter (fun vt => !(vt.candidate_id == c.id))).filter
          (fun vt => vt.candidate_id == c'.id)).length := by
      intro c' hc'
      have hne : c.id ≠ c'.id := (List.pairwise_cons.1 hdis).1 c' hc'
      rw [List.filter_filter]
      congr 1
      apply List.filter_congr
      intro vt _
      cases hb : (vt.candidate_id == c'.id)
      · simp
      · simp only [beq_iff_eq] at hb
        have hcb : (vt.candidate_id == c.id) = false := by
          simp only [beq_eq_false_iff_ne, ne_eq, hb]
          exact fun he => hne he.symm
        simp [hcb]
    have hsum :
        (cs.map (fun c' =>
          (vts.filter (fun vt => vt.candidate_id == c'.id)).length)).sum =
        (cs.map (fun c' =>
          ((vts.filter (fun vt => !(vt.candidate_id == c.id))).filter
            (fun vt => vt.candidate_id == c'.id)).length)).sum := by
      exact congrArg List.sum (List.map_congr_left hmap)
    have href' : ∀ vt ∈ vts.filter (fun vt => !(vt.candidate_id == c.id)),
        ∃ c' ∈ cs, vt.candidate_id = c'.id := by
      intro vt hvt
      have hvt' : vt ∈ vts := List.mem_of_mem_filter hvt
      have hnc : (vt.candidate_id == c.id) = false := by
        have := List.of_mem_filter hvt
        simpa using this
      obtain ⟨c', hc', hcid⟩ := href vt hvt'
      rcases List.mem_cons.1 hc' with rfl | hc'
      · exact absurd hcid (by simpa using hnc)
      · exact ⟨c', hc', hcid⟩
    rw [hsum, ih _ (List.pairwise_cons.1 hdis).2 href']
    exact length_filter_add_length_filter_not _ vts

/-! The concrete scenario of spec section 8 -/

/-- Register Alice (nid "A1") into an empty store. -/
def dbA : DB := (register_voter "A1" "Alice" "2000-01-01" (initDB [])).2

/-- Add candidate Bob / PartyX (gets id 1). -/
def dbB : DB := (add_candidate "Bob" "PartyX" dbA).2

/-- Add candidate Cara / PartyY (gets id 2). -/
def dbC : DB := (add_candidate "Cara" "PartyY" dbB).2

/-- Alice casts her vote for Bob (candidate id 1). -/
def dbV : DB := (vote "A1" 1 dbC).2

theorem reachable_dbC : Reachable dbC :=
  (((Reachable.init []).step
      (Step.register _ "A1" "Alice" "2000-01-01")).step
    (Step.addCand _ "Bob" "PartyX")).step
    (Step.addCand _ "Cara" "PartyY")

theorem reachable_dbV : Reachable dbV :=
  reachable_dbC.step (Step.castVote _ "A1" 1)

/-! The claims -/

/-- C1: in every state reachable from the empty store by the operations
(register voter, add candidate, cast vote), a voter's `has_voted` flag is
`true` iff exactly one committed Vote record references that voter: the
ledger and the flag never disagree. -/
theorem ledger_flag_agree {db : DB} (h : Reachable db) :
    ∀ v ∈ db.voters, (v.has_voted = true ↔ countVotesBy db v.id = 1) := by
  intro v hv
  have hc := (inv_reachable h).flag_count v hv
  cases hvb : v.has_voted <;> simp [hvb] at hc <;> simp [hvb, hc]

/-- Witness for C1 at the §8 scenario state: Alice has voted, and exactly
one Vote row references her. -/
theorem ledger_flag_agree_witness :
    ((⟨1, "A1", "Alice", "2000-01-01", true⟩ : Voter).has_voted = true ↔
      countVotesBy dbV 1 = 1) :=
  ledger_flag_agree reachable_dbV ⟨1, "A1", "Alice", "2000-01-01", true⟩
    (by decide)

/-- C2 as stated is false on the code: in the reachable state `dbV`,
voter "A1" has `has_voted = true` and candidate id 99 is not in the
roster, yet casting the vote fails with `AlreadyVoted` (the source checks
`has_voted` before resolving the candidate), not `CandidateNotFound`. -/
theorem vote_order_counterexample :
    vote "A1" 99 dbV = (Except.error ApiError.alreadyVoted, dbV) ∧
    ApiError.alreadyVoted ≠ ApiError.candidateNotFound ∧
    dbV.candidates.find? (fun c => c.id == 99) = none :=
  ⟨rfl, by decide, by decide⟩

/-- C2 amended: the vote operation checks voter existence first, then
`has_voted`, then candidate existence; consequently, whenever the voter
resolved by nid already has `has_voted = true`, casting a vote fails with
`AlreadyVoted` (state unchanged) regardless of the candidate id. -/
theorem alreadyVoted_checked_before_candidate {db : DB} {nid : String}
    {cid : Nat} {v : Voter}
    (hf : db.voters.find? (fun w => w.nid == nid) = some v)
    (hv : v.has_voted = true) :
    vote nid cid db = (Except.error ApiError.alreadyVoted, db) := by
  simp [vote, hf, hv]

/-- Witness for the amended C2: already-voted Alice, absent candidate 99. -/
theorem alreadyVoted_checked_before_candidate_witness :
    vote "A1" 99 dbV = (Except.error ApiError.alreadyVoted, dbV) :=
  @alreadyVoted_checked_before_candidate dbV "A1" 99
    ⟨1, "A1", "Alice", "2000-01-01", true⟩ (by decide) rfl

/-- C3: every failing vote attempt (VoterNotFound, CandidateNotFound or
AlreadyVoted) leaves the entire state unchanged: no Vote row is inserted
and no voter's flag is mutated. -/
theorem vote_error_no_side_effects {db : DB} {nid : String} {cid : Nat}
    {e : ApiError} (h : (vote nid cid db).1 = Except.error e) :
    (vote nid cid db).2 = db := by
  revert h
  unfold vote
  split
  · intro _; rfl
  · split
    · intro _; rfl
    · split
      · intro _; rfl
      · intro h; simp at h

/-- Witness for C3: an unregistered nid fails and the state is unchanged. -/
theorem vote_error_no_side_effects_witness : (vote "ZZ" 1 dbV).2 = dbV :=
  @vote_error_no_side_effects dbV "ZZ" 1 ApiError.voterNotFound rfl

/-- C4: the results operation returns one entry per candidate in roster
insertion order, pairing name and party with the count of committed votes
referencing that candidate (zero-vote candidates included with count 0,
and a candidate with N committed votes tallying exactly N); in every
reachable state the per-candidate counts sum to the total number of
committed votes. -/
theorem get_results_correct {db : DB} (h : Reachable db) :
    get_results db = db.candidates.map (fun c =>
      { candidate := c.name, party := c.party,
        votes := countVotesFor db c.id }) ∧
    ((get_results db).map (fun r => r.votes)).sum = db.votes.length := by
  constructor
  · rfl
  · have hinv := inv_reachable h
    unfold get_results
    rw [List.map_map]
    exact sum_counts db.candidates db.votes hinv.cand_ids hinv.vote_cand

/-- Witness for C4 at the §8 scenario state. -/
theorem get_results_correct_witness :
    get_results dbV = dbV.candidates.map (fun c =>
      { candidate := c.name, party := c.party,
        votes := countVotesFor dbV c.id }) ∧
    ((get_results dbV).map (fun r => r.votes)).sum = dbV.votes.length :=
  get_results_correct reachable_dbV

/-- C5 as stated is false in one respect: registration succeeds, creates
the voter (id 1), but the response is only a message naming the voter —
the assigned identifier appears nowhere in it (the digit 1 does not occur
in the message). -/
theorem register_no_identifier_counterexample :
    (register_voter "A1" "Alice" "2000-01-01" (initDB [])).1 =
      Except.ok "Voter Alice registered successfully" ∧
    ((register_voter "A1" "Alice" "2000-01-01" (initDB [])).2.voters.map
      (fun v => v.id)) = [1] ∧
    ("Voter Alice registered successfully".toList.contains '1') = false :=
  ⟨rfl, rfl, by decide⟩

/-- C5 amended: registration fails with DuplicateIdentity exactly when a
voter with the same nid (case-sensitive exact match) exists, adding no
voter; otherwise it appends a fresh Voter with `has_voted = false` and
returns a success message naming the voter (not the identifier). -/
theorem register_voter_correct (nid name bd : String) (db : DB) :
    ((∃ v ∈ db.voters, v.nid = nid) →
      register_voter nid name bd db =
        (Except.error ApiError.duplicateIdentity, db)) ∧
    ((∀ v ∈ db.voters, v.nid ≠ nid) →
      register_voter nid name bd db =
        (Except.ok (s!"Voter {name} registered successfully"),
         { voters := db.voters ++ [⟨db.next_voter_id, nid, name, bd, false⟩],
           candidates := db.candidates, votes := db.votes,
           admins := db.admins, next_voter_id := db.next_voter_id + 1,
           next_candidate_id := db.next_candidate_id,
           next_vote_id := db.next_vote_id })) := by
  constructor
  · rintro ⟨v, hv, hnid⟩
    cases hf : db.voters.find? (fun w => w.nid == nid) with
    | some w => simp [register_voter, hf]
    | none =>
      have := List.find?_eq_none.1 hf v hv
      simp [hnid] at this
  · intro hall
    cases hf : db.voters.find? (fun w => w.nid == nid) with
    | some w =>
      have hw := List.mem_of_find?_eq_some hf
      have hwe := List.find?_some hf
      simp only [beq_iff_eq] at hwe
      exact absurd hwe (hall w hw)
    | none => simp [register_voter, hf]

/-- Witness for the amended C5: re-registering nid "A1" fails without a
state change. -/
theorem register_voter_correct_witness :
    register_voter "A1" "Bea" "1999-01-01" dbV =
      (Except.error ApiError.duplicateIdentity, dbV) :=
  (register_voter_correct "A1" "Bea" "1999-01-01" dbV).1
    ⟨⟨1, "A1", "Alice", "2000-01-01", true⟩, by decide, rfl⟩

/-- C6: a voter's `has_voted` flag is monotone: registration creates it
`false`, and after any single operation a voter whose flag was `true` is
still present, same id and nid, with the flag still `true`. -/
theorem has_voted_monotone :
    (∀ db db', Step db db' → ∀ v, v ∈ db.voters → v.has_voted = true →
      ∃ v', v' ∈ db'.voters ∧ v'.id = v.id ∧ v'.nid = v.nid ∧
        v'.has_voted = true) ∧
    (∀ (nid name bd : String) (db : DB) (msg : String) (db' : DB),
      register_voter nid name bd db = (Except.ok msg, db') →
      db'.voters = db.voters ++ [⟨db.next_voter_id, nid, name, bd, false⟩]) := by
  constructor
  · intro db db' hs v hv hvt
    cases hs with
    | register nid name bd =>
      unfold register_voter
      split
      · exact ⟨v, hv, rfl, rfl, hvt⟩
      · exact ⟨v, List.mem_append_left _ hv, rfl, rfl, hvt⟩
    | addCand name cparty =>
      exact ⟨v, hv, rfl, rfl, hvt⟩
    | castVote nid cid =>
      unfold vote
      split
      · exact ⟨v, hv, rfl, rfl, hvt⟩
      · rename_i voter hf
        split
        · exact ⟨v, hv, rfl, rfl, hvt⟩
        · split
          · exact ⟨v, hv, rfl, rfl, hvt⟩
          · refine ⟨setFlag voter.id v, List.mem_map_of_mem _ hv, ?_, ?_, ?_⟩
            · simp
            · simp
            · simp [hvt]
  · intro nid name bd db msg db' h
    revert h
    unfold register_voter
    split
    · intro h; simp at h
    · intro h
      injection h with h1 h2
      rw [← h2]

/-- Witness for C6: after registering a second voter from the state where
Alice has voted, Alice is still present with her flag set. -/
theorem has_voted_monotone_witness :
    ∃ v', v' ∈ (register_voter "B2" "Bea" "1990-01-01" dbV).2.voters ∧
      v'.id = 1 ∧ v'.nid = "A1" ∧ v'.has_voted = true :=
  has_voted_monotone.1 dbV _ (Step.register dbV "B2" "Bea" "1990-01-01")
    ⟨1, "A1", "Alice", "2000-01-01", true⟩ (by decide) rfl

/-- C7: admin login fails with NotFound exactly when no admin row has the
supplied email; fails with InvalidCredential exactly when an admin with
that email exists but its stored secret differs; succeeds exactly when the
email is found and the secrets match, returning that admin's email (admin
emails are unique per spec §2, hence the no-duplicates hypothesis). -/
theorem admin_login_correct (email password : String) (db : DB)
    (hnodup : (db.admins.map (fun a => a.email)).Nodup) :
    (admin_login email password db = Except.error ApiError.adminNotFound ↔
      ∀ a ∈ db.admins, a.email ≠ email) ∧
    (admin_login email password db = Except.error ApiError.incorrectPassword ↔
      ∃ a ∈ db.admins, a.email = email ∧ a.pass_field ≠ password) ∧
    (∀ s, admin_login email password db = Except.ok s ↔
      ∃ a ∈ db.admins, a.email = email ∧ a.pass_field = password ∧
        s = a.email) := by
  cases hf : db.admins.find? (fun a => a.email == email) with
  | none =>
    have hnone : ∀ a ∈ db.admins, a.email ≠ email := by
      intro a ha
      have := List.find?_eq_none.1 hf a ha
      simpa using this
    have hres : admin_login email password db =
        Except.error ApiError.adminNotFound := by
      simp [admin_login, hf]
    refine ⟨?_, ?_, ?_⟩
    · rw [hres]
      exact ⟨fun _ => hnone, fun _ => rfl⟩
    · rw [hres]
      constructor
      · intro h; simp at h
      · rintro ⟨a, ha, hae, -⟩
        exact absurd hae (hnone a ha)
    · intro s
      rw [hres]
      constructor
      · intro h; simp at h
      · rintro ⟨a, ha, hae, -, -⟩
        exact absurd hae (hnone a ha)
  | some a0 =>
    have ha0 : a0 ∈ db.admins := List.mem_of_find?_eq_some hf
    have hae0 : a0.email = email := by
      have := List.find?_some hf
      simpa using this
    have huniq : ∀ a ∈ db.admins, a.email = email → a = a0 := by
      intro a ha hae
      exact List.inj_on_of_nodup_map hnodup ha ha0 (by rw [hae, hae0])
    by_cases hpw : a0.pass_field = password
    · have hres : admin_login email password db = Except.ok a0.email := by
        simp [admin_login, hf, hpw]
      refine ⟨?_, ?_, ?_⟩
      · rw [hres]
        constructor
        · intro h; simp at h
        · intro h; exact absurd hae0 (h a0 ha0)
      · rw [hres]
        constructor
        · intro h; simp at h
        · rintro ⟨a, ha, hae, hp⟩
          rw [huniq a ha hae] at hp
          exact absurd hpw hp
      · intro s
        rw [hres]
        constructor
        · intro h
          injection h with hs
          exact ⟨a0, ha0, hae0, hpw, hs.symm⟩
        · rintro ⟨a, ha, hae, -, hs⟩
          rw [huniq a ha hae] at hs
          rw [hs]
    · have hres : admin_login email password db =
          Except.error ApiError.incorrectPassword := by
        simp [admin_login, hf, hpw]
      refine ⟨?_, ?_, ?_⟩
      · rw [hres]
        constructor
        · intro h; simp at h
        · intro h; exact absurd hae0 (h a0 ha0)
      · rw [hres]
        constructor
        · intro _; exact ⟨a0, ha0, hae0, hpw⟩
        · intro _; rfl
      · intro s
        rw [hres]
        constructor
        · intro h; simp at h
        · rintro ⟨a, ha, hae, hp, -⟩
          rw [huniq a ha hae] at hp
          exact absurd hp hpw

/-- A store whose out-of-band admin table holds one admin. -/
def dbAdmins : DB := initDB [⟨"admin@vote.gov", "hunter2"⟩]

/-- Witness for C7: a matching email and secret log in successfully. -/
theorem admin_login_correct_witness :
    admin_login "admin@vote.gov" "hunter2" dbAdmins =
        Except.ok "admin@vote.gov" ↔
      ∃ a ∈ dbAdmins.admins, a.email = "admin@vote.gov" ∧
        a.pass_field = "hunter2" ∧ "admin@vote.gov" = a.email :=
  (admin_login_correct "admin@vote.gov" "hunter2" dbAdmins
    (by decide)).2.2 "admin@vote.gov"

/-- C8: adding a candidate always succeeds — for every name/party input,
including a pair identical to a stored candidate — and in any reachable
state the assigned identifier differs from every existing candidate's. -/
theorem add_candidate_always_succeeds {db : DB} (h : Reachable db)
    (name cparty : String) :
    (add_candidate name cparty db).1 =
      Except.ok (s!"Candidate {name} added successfully") ∧
    (add_candidate name cparty db).2.candidates =
      db.candidates ++ [⟨db.next_candidate_id, name, cparty⟩] ∧
    ∀ c ∈ db.candidates, c.id ≠ db.next_candidate_id :=
  ⟨rfl, rfl, fun c hc => Nat.ne_of_lt ((inv_reachable h).cand_id_lt c hc)⟩

/-- Witness for C8: adding a duplicate of candidate "Bob"/"PartyX" to the
scenario state succeeds, and the fresh id 3 differs from stored id 1. -/
theorem add_candidate_always_succeeds_witness :
    (add_candidate "Bob" "PartyX" dbV).1 =
      Except.ok "Candidate Bob added successfully" ∧
    (⟨1, "Bob", "PartyX"⟩ : Candidate).id ≠ 3 :=
  ⟨(add_candidate_always_succeeds reachable_dbV "Bob" "PartyX").1,
   (add_candidate_always_succeeds reachable_dbV "Bob" "PartyX").2.2
     ⟨1, "Bob", "PartyX"⟩ (by decide)⟩

/-- C9: a successful vote cast appends exactly one Vote row referencing
the resolved voter and candidate and sets that voter's flag; candidates,
admins, all earlier votes, and every other voter's record are unchanged. -/
theorem vote_success_frame {db : DB} {nid : String} {cid : Nat}
    {msg : String} {db' : DB}
    (h : vote nid cid db = (Except.ok msg, db')) :
    ∃ voter candidate,
      db.voters.find? (fun v => v.nid == nid) = some voter ∧
      db.candidates.find? (fun c => c.id == cid) = some candidate ∧
      voter.has_voted = false ∧
      db'.votes = db.votes ++
        [⟨db.next_vote_id, voter.id, candidate.id⟩] ∧
      db'.voters = db.voters.map (setFlag voter.id) ∧
      db'.candidates = db.candidates ∧
      db'.admins = db.admins ∧
      (∀ w ∈ db.voters, w.id ≠ voter.id → w ∈ db'.voters) ∧
      { voter with has_voted := true } ∈ db'.voters := by
  revert h
  unfold vote
  split
  · intro h; simp at h
  · rename_i voter hf
    split
    · intro h; simp at h
    · rename_i hvt0
      split
      · intro h; simp at h
      · rename_i candidate hc
        intro h
        injection h with h1 h2
        have hvt : voter.has_voted = false := by
          cases hb : voter.has_voted
          · rfl
          · exact absurd hb hvt0
        refine ⟨voter, candidate, hf, hc, hvt, ?_, ?_, ?_, ?_, ?_, ?_⟩
        · rw [← h2]
        · rw [← h2]
        · rw [← h2]
        · rw [← h2]
        · intro w hw hwne
          rw [← h2]
          have hsw : setFlag voter.id w = w := setFlag_of_ne hwne
          rw [show (w ∈ List.map (setFlag voter.id) db.voters) =
              (setFlag voter.id w ∈ List.map (setFlag voter.id) db.voters)
            from by rw [hsw]]
          exact List.mem_map_of_mem _ hw
        · rw [← h2]
          have hsv : setFlag voter.id voter =
              { voter with has_voted := true } := setFlag_of_eq rfl
          rw [← hsv]
          exact List.mem_map_of_mem _ (List.mem_of_find?_eq_some hf)

/-- Witness for C9: Alice's successful vote for Bob from the state with
two candidates. -/
theorem vote_success_frame_witness :
    ∃ voter candidate,
      dbC.voters.find? (fun v => v.nid == "A1") = some voter ∧
      dbC.candidates.find? (fun c => c.id == 1) = some candidate ∧
      voter.has_voted = false ∧
      dbV.votes = dbC.votes ++
        [⟨dbC.next_vote_id, voter.id, candidate.id⟩] ∧
      dbV.voters = dbC.voters.map (setFlag voter.id) ∧
      dbV.candidates = dbC.candidates ∧
      dbV.admins = dbC.admins ∧
      (∀ w ∈ dbC.voters, w.id ≠ voter.id → w ∈ dbV.voters) ∧
      { voter with has_voted := true } ∈ dbV.voters :=
  @vote_success_frame dbC "A1" 1 "Alice successfully voted for Bob" dbV rfl

/-- C10: listing voters and candidates never fails: an empty store yields
an informational message with an empty sequence, a non-empty store yields
no message and one entry per stored record. -/
theorem lists_never_fail (db : DB) :
    (db.voters = [] →
      voter_list db = (some "No voters registered yet", [])) ∧
    (db.voters ≠ [] → (voter_list db).1 = none ∧
      (voter_list db).2 = db.voters.map (fun v =>
        ⟨v.id, v.nid, v.name, v.birth_date, v.has_voted⟩) ∧
      (voter_list db).2.length = db.voters.length) ∧
    (db.candidates = [] →
      list_candidates db = (some "No candidates registered yet", [])) ∧
    (db.candidates ≠ [] → (list_candidates db).1 = none ∧
      (list_candidates db).2 = db.candidates.map (fun c =>
        ⟨c.id, c.name, c.party, countVotesFor db c.id⟩) ∧
      (list_candidates db).2.length = db.candidates.length) := by
  refine ⟨?_, ?_, ?_, ?_⟩
  · intro he; simp [voter_list, he]
  · intro hne
    have hb : db.voters.isEmpty = false := by
      cases hl : db.voters.isEmpty
      · rfl
      · exact absurd (List.isEmpty_iff.1 hl) hne
    refine ⟨?_, ?_, ?_⟩ <;> simp [voter_list, hb]
  · intro he; simp [list_candidates, he]
  · intro hne
    have hb : db.candidates.isEmpty = false := by
      cases hl : db.candidates.isEmpty
      · rfl
      · exact absurd (List.isEmpty_iff.1 hl) hne
    refine ⟨?_, ?_, ?_⟩ <;> simp [list_candidates, hb]

/-- Witness for C10: the empty store and the §8 scenario state. -/
theorem lists_never_fail_witness :
    voter_list (initDB []) = (some "No voters registered yet", []) ∧
    (voter_list dbV).1 = none ∧
    (list_candidates dbV).2.length = dbV.candidates.length :=
  ⟨(lists_never_fail (initDB [])).1 rfl,
   ((lists_never_fail dbV).2.1 (by decide)).1,
   ((lists_never_fail dbV).2.2.2 (by decide)).2.2⟩

end EVoting
